import Mathlib

/-!
Shallow embedding of `src/lib/http-users/user/tokens.js`: the token
lifecycle core (`User.tokens`, `User.deleteToken`, `User.addToken`) and the
route-level adaptation layer (the GET list handler and the
`addOrUpdateToken` PUT/POST handler).

JS objects holding `tokenName -> tokenValue` pairs are modelled as
association lists in insertion order, matching `for..in` iteration order
for non-integer string keys.  The `uuid.v4()` randomness source is
modelled as an explicit stream `rnd : Nat -> String` together with the
index of the next unconsumed draw; `~~(Math.random() * 1e9)` is modelled
as an arbitrary natural number argument.  A JS `TypeError` raised by
indexing into `undefined` is modelled as the error value `Err.typeError`.
-/

/-- A JS object used as a map from token names to token values. -/
abbrev TokenMap := List (String × String)

/-- Property read `m[k]`: the value stored under key `k`, if any. -/
def objGet (m : TokenMap) (k : String) : Option String :=
  m.lookup k

/-- The JS `in`-style test: does object `m` have key `k`? -/
def objHas (m : TokenMap) (k : String) : Bool :=
  m.any (fun p => p.1 == k)

/-- Property write `m[k] = v`: overwrite an existing key in place,
otherwise append the new key (JS insertion order). -/
def objSet (m : TokenMap) (k v : String) : TokenMap :=
  if objHas m k then m.map (fun p => if p.1 == k then (k, v) else p)
  else m ++ [(k, v)]

/-- The JS `delete m[k]` statement. -/
def objDelete (m : TokenMap) (k : String) : TokenMap :=
  m.filter (fun p => p.1 != k)

/-- Truthiness test `!m[k]` on an optional looked-up string:
`undefined` and the empty string are falsy. -/
def jsFalsy : Option String → Bool
  | none => true
  | some s => s == ""

/-- Number of entries of `m` whose key is `k`. -/
def countKey (m : TokenMap) (k : String) : Nat :=
  (m.filter (fun p => p.1 == k)).length

/-- The user document held by the store.  `apiTokens` is `none` when the
document carries no `apiTokens` field at all (JS `undefined`). -/
structure Account where
  username : String
  password : String
  email : String
  apiTokens : Option TokenMap
deriving Repr, DecidableEq

/-- The partial document passed to `User.update`; `none` fields are not
part of the update.  The core only ever passes `{ apiTokens: ... }`. -/
structure UpdatePayload where
  usernameField : Option String
  passwordField : Option String
  emailField : Option String
  apiTokensField : Option TokenMap
deriving Repr, DecidableEq

/-- The payload `{ apiTokens: m }` built at tokens.js lines 78 and 153. -/
def tokensOnly (m : TokenMap) : UpdatePayload :=
  ⟨none, none, none, some m⟩

/-- Merge a partial update into a stored document (resourceful `update`
semantics: present fields overwrite, absent fields are kept). -/
def mergeUser (u : Account) (p : UpdatePayload) : Account :=
  { username := p.usernameField.getD u.username
    password := p.passwordField.getD u.password
    email := p.emailField.getD u.email
    apiTokens := match p.apiTokensField with
      | some m => some m
      | none => u.apiTokens }

/-- The external user store: documents keyed by username. -/
abbrev Store := List (String × Account)

/-- Replace the document stored under `username`. -/
def storePut (store : Store) (username : String) (a : Account) : Store :=
  store.map (fun kv => if kv.1 == username then (kv.1, a) else kv)

/-- Error taxonomy of the core.  `notFound` is the `User.get` failure,
`tokenNotFound` is "Can't delete token, it does not exist",
`storageError` an opaque persistence failure, and `typeError` a JS
`TypeError` from indexing into `undefined`. -/
inductive Err where
  | notFound
  | tokenNotFound
  | storageError
  | typeError
deriving Repr, DecidableEq

/-- The base-36 digit characters used by JS `Number.prototype.toString(36)`. -/
def b36digit (d : Nat) : Char :=
  if d < 10 then Char.ofNat (48 + d) else Char.ofNat (87 + d)

/-- Digit accumulator for `natToB36`; `fuel ≥ n` always suffices because
the argument shrinks strictly at every step. -/
def b36aux (fuel n : Nat) (acc : List Char) : List Char :=
  match fuel with
  | 0 => acc
  | fuel + 1 => if n = 0 then acc else b36aux fuel (n / 36) (b36digit (n % 36) :: acc)

/-- JS `n.toString(36)` for a natural number `n`. -/
def natToB36 (n : Nat) : String :=
  if n = 0 then "0" else String.mk (b36aux n n [])

/-- The auto-generated name of tokens.js line 102:
`'gen_' + (~~(Math.random() * 1e9)).toString(36)`. -/
def genTokenName (r : Nat) : String :=
  "gen_" ++ natToB36 r

/-- The auto-generated name of tokens.js line 235:
`'token_' + (~~(Math.random() * 1e9)).toString(36)`. -/
def gatewayTokenName (r : Nat) : String :=
  "token_" ++ natToB36 r

/-- The collision scan of tokens.js lines 128-132: one `for..in` pass over
the existing entries, drawing a fresh value from the stream whenever the
current entry's value equals the current candidate. -/
def collisionScan (rnd : Nat → String) : List (String × String) → String → Nat → String × Nat
  | [], tok, i => (tok, i)
  | kv :: rest, tok, i =>
    if kv.2 == tok then collisionScan rnd rest (rnd i) (i + 1)
    else collisionScan rnd rest tok i

/-- The insert-vs-update classification of tokens.js lines 139-143:
`typeof apiTokens[tokenname] === "string"` (token values are strings, so
this is key presence). -/
def classifyOp (apiTokens : TokenMap) (tokenname : String) : String :=
  if (objGet apiTokens tokenname).isSome then "update" else "insert"

/-- Decidable equality for `Except`, needed so concrete operation outcomes
can be settled by `decide`. -/
instance exceptDecidableEq {ε α : Type} [DecidableEq ε] [DecidableEq α] :
    DecidableEq (Except ε α) := fun a b =>
  match a, b with
  | .error e, .error f =>
    if h : e = f then .isTrue (by subst h; rfl)
    else .isFalse (fun hc => h (by injection hc))
  | .error _, .ok _ => .isFalse (fun hc => Except.noConfusion hc)
  | .ok _, .error _ => .isFalse (fun hc => Except.noConfusion hc)
  | .ok x, .ok y =>
    if h : x = y then .isTrue (by subst h; rfl)
    else .isFalse (fun hc => h (by injection hc))

namespace User

/-- `User.get`: fetch the document, failing with `notFound` when absent. -/
def get (store : Store) (username : String) : Except Err Account :=
  match store.lookup username with
  | none => .error .notFound
  | some u => .ok u

/-- `User.update`: merge a partial document into the stored one, failing
with `notFound` when the account is absent. -/
def update (store : Store) (username : String) (p : UpdatePayload) :
    Except Err Store :=
  match store.lookup username with
  | none => .error .notFound
  | some u => .ok (storePut store username (mergeUser u p))

/-- Outcome of `User.tokens`: the callback result plus the (empty) list of
storage writes performed. -/
structure ListOutcome where
  result : Except Err TokenMap
  writes : List (String × UpdatePayload)
deriving Repr, DecidableEq

/-- `User.tokens` (tokens.js lines 31-41): fetch the user, fall back to an
empty map when `apiTokens` is absent, and hand the map back. -/
def tokens (store : Store) (username : String) : ListOutcome :=
  match get store username with
  | .error e => ⟨.error e, []⟩
  | .ok u => ⟨.ok (u.apiTokens.getD []), []⟩

/-- Outcome of `User.deleteToken`: callback result, storage writes
attempted, and the resulting store. -/
structure DelOutcome where
  result : Except Err Unit
  writes : List (String × UpdatePayload)
  store : Store
deriving Repr, DecidableEq

/-- `User.deleteToken` (tokens.js lines 51-89).  Note line 60 reads
`user.apiTokens` with no `|| {}` fallback, so when the field is absent the
truthiness test at line 65 indexes into `undefined`: a `TypeError`. -/
def deleteToken (store : Store) (username tokenname : String) : DelOutcome :=
  match get store username with
  | .error e => ⟨.error e, [], store⟩
  | .ok u =>
    match u.apiTokens with
    | none => ⟨.error .typeError, [], store⟩
    | some apiTokens =>
      if jsFalsy (objGet apiTokens tokenname) then
        ⟨.error .tokenNotFound, [], store⟩
      else
        let m := objDelete apiTokens tokenname
        match update store username (tokensOnly m) with
        | .error e => ⟨.error e, [(username, tokensOnly m)], store⟩
        | .ok store' => ⟨.ok (), [(username, tokensOnly m)], store'⟩

/-- The response object of `User.addToken`: `{operation: ..}` assembled at
line 140/142 and then `newToken[tokenname] = token` at line 163. -/
abbrev Response := List (String × String)

/-- Outcome of `User.addToken`: callback result, storage writes attempted,
the resulting store, and the index of the next unconsumed random draw. -/
structure AddOutcome where
  result : Except Err Response
  writes : List (String × UpdatePayload)
  store : Store
  ridx : Nat
deriving Repr, DecidableEq

/-- Resolution of the optional `tokenname` argument (tokens.js lines
100-103): when the callback sits in the `tokenname` slot, the `gen_`-named
fallback fires. -/
def resolveTokenName (tokenname? : Option String) (nameRand : Nat) : String :=
  match tokenname? with
  | some n => n
  | none => genTokenName nameRand

/-- `User.addToken` (tokens.js lines 99-168).  `tokenname?` is `none` when
the caller passed the callback in the `tokenname` slot (line 100), in
which case the `gen_`-named fallback of line 102 fires with draw
`nameRand`; the initial `uuid.v4()` of line 108 is `rnd i`. -/
def addToken (store : Store) (username : String) (tokenname? : Option String)
    (nameRand : Nat) (rnd : Nat → String) (i : Nat) : AddOutcome :=
  let tokenname := resolveTokenName tokenname? nameRand
  let token := rnd i
  let j := i + 1
  match get store username with
  | .error e => ⟨.error e, [], store, j⟩
  | .ok u =>
    let apiTokens := u.apiTokens.getD []
    let scanned := collisionScan rnd apiTokens token j
    let op := classifyOp apiTokens tokenname
    let m := objSet apiTokens tokenname scanned.1
    match update store username (tokensOnly m) with
    | .error e => ⟨.error e, [(username, tokensOnly m)], store, scanned.2⟩
    | .ok store' =>
      let resp := objSet (objSet [] "operation" op) tokenname scanned.1
      ⟨.ok resp, [(username, tokensOnly m)], store', scanned.2⟩

end User

/-- The authentication context `this.req.user.authMethod` of the routes. -/
structure AuthMethod where
  method : String
  id : String
deriving Repr, DecidableEq

/-- Result of the GET list route: a JSON body whose `apiTokens` values may
be `undefined` (the filtered branch), a JSON error, or a thrown
`TypeError` that never reaches `res.json`. -/
inductive GetRouteResult where
  | json (code : Nat) (apiTokens : List (String × Option String))
  | jsonErr (code : Nat) (e : Err)
  | crash (e : Err)
deriving Repr, DecidableEq

/-- The GET `/users/:username/tokens` handler (tokens.js lines 186-213).
The filtering branch runs before the `err` check, so when the fetch failed
and the caller is token-authenticated, `tokens.apiTokens` dereferences
`undefined` and throws. -/
def getTokensRoute (store : Store) (username : String) (auth : AuthMethod) :
    GetRouteResult :=
  match (User.tokens store username).result with
  | .error e =>
    if auth.method != "username/password" then .crash .typeError
    else .jsonErr 500 e
  | .ok m =>
    if auth.method != "username/password" then
      .json 200 [(auth.id, objGet m auth.id)]
    else
      .json 200 (m.map (fun kv => (kv.1, some kv.2)))

/-- Result of the PUT/POST add-or-update route. -/
inductive AddRouteResult where
  | created (resp : User.Response)
  | failed (e : Err)
deriving Repr, DecidableEq

/-- The `addOrUpdateToken` handler (tokens.js lines 232-245): when no
token name arrives it generates a `token_`-named one (line 235) and always
passes an explicit name on to `User.addToken`. -/
def addOrUpdateToken (store : Store) (username : String)
    (tokenname? : Option String) (nameRand : Nat) (rnd : Nat → String)
    (i : Nat) : AddRouteResult × User.AddOutcome :=
  let tokenname := match tokenname? with
    | some n => n
    | none => gatewayTokenName nameRand
  let o := User.addToken store username (some tokenname) nameRand rnd i
  match o.result with
  | .error e => (.failed e, o)
  | .ok resp => (.created resp, o)

/-! ### Association-list lemmas for the JS object operations -/

theorem objGet_nil (k : String) : objGet [] k = none := rfl

theorem objGet_cons (a b : String) (m : TokenMap) (k : String) :
    objGet ((a, b) :: m) k = if k = a then some b else objGet m k := by
  by_cases h : k = a
  · simp [objGet, List.lookup, h]
  · simp [objGet, List.lookup, beq_eq_false_iff_ne.mpr h, h]

theorem objHas_cons (p : String × String) (m : TokenMap) (k : String) :
    objHas (p :: m) k = (p.1 == k || objHas m k) := by
  simp [objHas]

theorem objHas_false_objGet (m : TokenMap) (k : String)
    (h : objHas m k = false) : objGet m k = none := by
  induction m with
  | nil => rfl
  | cons p m ih =>
    obtain ⟨a, b⟩ := p
    rw [objHas_cons] at h
    simp only [Bool.or_eq_false_iff] at h
    rw [objGet_cons]
    have ha : ¬ (k = a) := fun hk => by simp [hk] at h
    rw [if_neg ha]
    exact ih h.2

theorem lookup_overwrite_self (m : TokenMap) (k v : String)
    (hhas : objHas m k = true) :
    objGet (m.map (fun p => if p.1 == k then (k, v) else p)) k = some v := by
  induction m with
  | nil => simp [objHas] at hhas
  | cons p m ih =>
    obtain ⟨a, b⟩ := p
    simp only [List.map_cons]
    by_cases hak : a = k
    · rw [show (if ((a, b).1 == k) then (k, v) else (a, b)) = (k, v) from by simp [hak]]
      rw [objGet_cons, if_pos rfl]
    · rw [show (if ((a, b).1 == k) then (k, v) else (a, b)) = (a, b) from by simp [hak]]
      rw [objGet_cons, if_neg (fun hk => hak hk.symm)]
      rw [objHas_cons] at hhas
      simp only [Bool.or_eq_true] at hhas
      rcases hhas with h | h
      · exact absurd (by simpa using h) hak
      · exact ih h

theorem lookup_overwrite_ne (m : TokenMap) (k v j : String) (hj : j ≠ k) :
    objGet (m.map (fun p => if p.1 == k then (k, v) else p)) j = objGet m j := by
  induction m with
  | nil => rfl
  | cons p m ih =>
    obtain ⟨a, b⟩ := p
    simp only [List.map_cons]
    by_cases hak : a = k
    · rw [show (if ((a, b).1 == k) then (k, v) else (a, b)) = (k, v) from by simp [hak]]
      rw [objGet_cons, if_neg hj, objGet_cons, if_neg (by rw [hak]; exact hj)]
      exact ih
    · rw [show (if ((a, b).1 == k) then (k, v) else (a, b)) = (a, b) from by simp [hak]]
      rw [objGet_cons, objGet_cons]
      by_cases hja : j = a
      · simp [hja]
      · rw [if_neg hja, if_neg hja]
        exact ih

theorem lookup_append_single_self (m : TokenMap) (k v : String)
    (hhas : objHas m k = false) :
    objGet (m ++ [(k, v)]) k = some v := by
  induction m with
  | nil => rw [List.nil_append, objGet_cons, if_pos rfl]
  | cons p m ih =>
    obtain ⟨a, b⟩ := p
    rw [objHas_cons] at hhas
    simp only [Bool.or_eq_false_iff] at hhas
    rw [List.cons_append, objGet_cons]
    rw [if_neg (fun hk => by simp [hk] at hhas)]
    exact ih hhas.2

theorem lookup_append_single_ne (m : TokenMap) (k v j : String) (hj : j ≠ k) :
    objGet (m ++ [(k, v)]) j = objGet m j := by
  induction m with
  | nil => rw [List.nil_append, objGet_cons, if_neg hj]
  | cons p m ih =>
    obtain ⟨a, b⟩ := p
    rw [List.cons_append, objGet_cons, objGet_cons]
    by_cases hja : j = a
    · simp [hja]
    · rw [if_neg hja, if_neg hja]
      exact ih

theorem objGet_objSet_self (m : TokenMap) (k v : String) :
    objGet (objSet m k v) k = some v := by
  unfold objSet
  by_cases h : objHas m k
  · rw [if_pos h]
    exact lookup_overwrite_self m k v h
  · rw [if_neg h]
    exact lookup_append_single_self m k v (by simpa using h)

theorem objGet_objSet_ne (m : TokenMap) (k v j : String) (hj : j ≠ k) :
    objGet (objSet m k v) j = objGet m j := by
  unfold objSet
  by_cases h : objHas m k
  · rw [if_pos h]
    exact lookup_overwrite_ne m k v j hj
  · rw [if_neg h]
    exact lookup_append_single_ne m k v j hj

theorem objGet_objDelete_self (m : TokenMap) (k : String) :
    objGet (objDelete m k) k = none := by
  induction m with
  | nil => rfl
  | cons p m ih =>
    obtain ⟨a, b⟩ := p
    rw [objDelete, List.filter_cons]
    by_cases hak : a = k
    · rw [show (((a, b).1 != k)) = false from by simp [hak], if_neg (by simp)]
      simpa [objDelete] using ih
    · rw [show (((a, b).1 != k)) = true from by simp [hak], if_pos rfl]
      rw [objGet_cons, if_neg (fun hk => hak hk.symm)]
      simpa [objDelete] using ih

theorem objGet_objDelete_ne (m : TokenMap) (k j : String) (hj : j ≠ k) :
    objGet (objDelete m k) j = objGet m j := by
  induction m with
  | nil => rfl
  | cons p m ih =>
    obtain ⟨a, b⟩ := p
    rw [objGet_cons]
    rw [objDelete, List.filter_cons]
    by_cases hak : a = k
    · rw [show (((a, b).1 != k)) = false from by simp [hak], if_neg (by simp)]
      rw [if_neg (fun hja => hj (hja.trans hak))]
      simpa [objDelete] using ih
    · rw [show (((a, b).1 != k)) = true from by simp [hak], if_pos rfl]
      rw [objGet_cons]
      by_cases hja : j = a
      · rw [if_pos hja, if_pos hja]
      · rw [if_neg hja, if_neg hja]
        simpa [objDelete] using ih

theorem keys_overwrite (m : TokenMap) (k v : String) :
    (m.map (fun p => if p.1 == k then (k, v) else p)).map Prod.fst
      = m.map Prod.fst := by
  induction m with
  | nil => rfl
  | cons p m ih =>
    obtain ⟨a, b⟩ := p
    by_cases hak : a = k
    · simp only [List.map_cons]
      rw [show (if ((a, b).1 == k) then (k, v) else (a, b)) = (k, v) from by simp [hak]]
      rw [hak]
      exact congrArg (fun t => k :: t) ih
    · simp only [List.map_cons]
      rw [show (if ((a, b).1 == k) then (k, v) else (a, b)) = (a, b) from by simp [hak]]
      exact congrArg (fun t => (a, b).1 :: t) ih

theorem keys_objSet (m : TokenMap) (k v : String) :
    (objSet m k v).map Prod.fst =
      if objHas m k then m.map Prod.fst else m.map Prod.fst ++ [k] := by
  unfold objSet
  by_cases h : objHas m k
  · rw [if_pos h, if_pos h, keys_overwrite]
  · rw [if_neg h, if_neg h, List.map_append]
    rfl

theorem objHas_iff_mem_keys (m : TokenMap) (k : String) :
    objHas m k = true ↔ k ∈ m.map Prod.fst := by
  simp only [objHas, List.any_eq_true, beq_iff_eq, List.mem_map]

theorem nodup_keys_objSet (m : TokenMap) (k v : String)
    (h : (m.map Prod.fst).Nodup) : ((objSet m k v).map Prod.fst).Nodup := by
  rw [keys_objSet]
  by_cases hh : objHas m k
  · rw [if_pos hh]
    exact h
  · rw [if_neg hh]
    have hk : k ∉ m.map Prod.fst := fun hmem => hh ((objHas_iff_mem_keys m k).mpr hmem)
    simp [List.nodup_append, h, hk]

theorem countKey_eq_count (m : TokenMap) (k : String) :
    countKey m k = (m.map Prod.fst).count k := by
  induction m with
  | nil => rfl
  | cons p m ih =>
    obtain ⟨a, b⟩ := p
    rw [countKey, List.filter_cons]
    by_cases hak : a = k
    · rw [show (((a, b).1 == k)) = true from by simp [hak], if_pos rfl]
      simp only [List.length_cons, List.map_cons, List.count_cons]
      rw [show countKey m k = (m.filter (fun p => p.1 == k)).length from rfl] at ih
      simp [ih, hak]
    · rw [show (((a, b).1 == k)) = false from by simp [hak], if_neg (by simp)]
      simp only [List.map_cons, List.count_cons]
      rw [show countKey m k = (m.filter (fun p => p.1 == k)).length from rfl] at ih
      simp [ih, show ¬ (k = a) from fun hk => hak hk.symm, hak]

theorem countKey_objSet_self (m : TokenMap) (k v : String)
    (h : (m.map Prod.fst).Nodup) : countKey (objSet m k v) k = 1 := by
  rw [countKey_eq_count, keys_objSet]
  by_cases hh : objHas m k
  · rw [if_pos hh]
    exact List.count_eq_one_of_mem h ((objHas_iff_mem_keys m k).mp hh)
  · rw [if_neg hh]
    have hk : k ∉ m.map Prod.fst := fun hmem => hh ((objHas_iff_mem_keys m k).mpr hmem)
    rw [List.count_append]
    simp [List.count_eq_zero.mpr hk]

/-! ### Lemmas about the collision scan -/

theorem collisionScan_le (rnd : Nat → String) (es : List (String × String))
    (tok : String) (i : Nat) : i ≤ (collisionScan rnd es tok i).2 := by
  induction es generalizing tok i with
  | nil => simp [collisionScan]
  | cons kv rest ih =>
    by_cases h : kv.2 = tok
    · rw [collisionScan, if_pos (by simp [h])]
      exact le_trans (Nat.le_succ i) (ih (rnd i) (i + 1))
    · rw [collisionScan, if_neg (by simp [h])]
      exact ih tok i

theorem collisionScan_stable (rnd : Nat → String) (es : List (String × String))
    (tok : String) (i : Nat) (h : (collisionScan rnd es tok i).2 = i) :
    (collisionScan rnd es tok i).1 = tok ∧ ∀ kv ∈ es, kv.2 ≠ tok := by
  induction es generalizing tok i with
  | nil => simp [collisionScan]
  | cons kv rest ih =>
    by_cases hc : kv.2 = tok
    · exfalso
      rw [collisionScan, if_pos (by simp [hc])] at h
      have := collisionScan_le rnd rest (rnd i) (i + 1)
      omega
    · rw [collisionScan, if_neg (by simp [hc])] at h ⊢
      obtain ⟨h1, h2⟩ := ih tok i h
      exact ⟨h1, by
        intro p hp
        rcases List.mem_cons.mp hp with rfl | hp'
        · exact hc
        · exact h2 p hp'⟩

/-! ### Lemmas about the store and the three operations -/

theorem get_ok_iff (store : Store) (username : String) (a : Account) :
    User.get store username = .ok a ↔ store.lookup username = some a := by
  unfold User.get
  cases h : store.lookup username <;> simp

theorem get_err_iff (store : Store) (username : String) (e : Err) :
    (User.get store username = .error e) ↔
      (store.lookup username = none ∧ e = .notFound) := by
  unfold User.get
  cases h : store.lookup username <;> simp
  exact eq_comm

theorem lookup_storePut_self (store : Store) (username : String) (u a : Account)
    (h : store.lookup username = some u) :
    (storePut store username a).lookup username = some a := by
  induction store with
  | nil => simp [List.lookup] at h
  | cons kv rest ih =>
    obtain ⟨n, d⟩ := kv
    rw [storePut, List.map_cons]
    by_cases hn : n = username
    · rw [show (if (((n, d) : String × Account).1 == username)
          then (((n, d) : String × Account).1, a) else (n, d)) = (n, a) from by simp [hn]]
      simp [List.lookup, hn]
    · rw [show (if (((n, d) : String × Account).1 == username)
          then (((n, d) : String × Account).1, a) else (n, d)) = (n, d) from by simp [hn]]
      have hne : (username == n) = false := beq_eq_false_iff_ne.mpr (fun he => hn he.symm)
      simp only [List.lookup, hne] at h ⊢
      simpa [storePut] using ih h

theorem update_ok (store : Store) (username : String) (u : Account)
    (p : UpdatePayload) (h : store.lookup username = some u) :
    User.update store username p = .ok (storePut store username (mergeUser u p)) := by
  unfold User.update
  rw [h]

theorem get_storePut (store : Store) (username : String) (u a : Account)
    (h : store.lookup username = some u) :
    User.get (storePut store username a) username = .ok a := by
  rw [get_ok_iff]
  exact lookup_storePut_self store username u a h

theorem tokens_err (store : Store) (username : String) (e : Err)
    (hget : User.get store username = .error e) :
    User.tokens store username = ⟨.error e, []⟩ := by
  unfold User.tokens
  rw [hget]

theorem tokens_ok (store : Store) (username : String) (u : Account)
    (hget : User.get store username = .ok u) :
    User.tokens store username = ⟨.ok (u.apiTokens.getD []), []⟩ := by
  unfold User.tokens
  rw [hget]

theorem addToken_err (store : Store) (username : String) (tn? : Option String)
    (a : Nat) (rnd : Nat → String) (i : Nat) (e : Err)
    (hget : User.get store username = .error e) :
    User.addToken store username tn? a rnd i = ⟨.error e, [], store, i + 1⟩ := by
  unfold User.addToken
  rw [hget]

theorem addToken_run (store : Store) (username : String) (tn? : Option String)
    (a : Nat) (rnd : Nat → String) (i : Nat) (u : Account)
    (hget : User.get store username = .ok u) :
    User.addToken store username tn? a rnd i =
      ⟨.ok (objSet (objSet [] "operation"
              (classifyOp (u.apiTokens.getD []) (User.resolveTokenName tn? a)))
            (User.resolveTokenName tn? a)
            (collisionScan rnd (u.apiTokens.getD []) (rnd i) (i + 1)).1),
        [(username, tokensOnly (objSet (u.apiTokens.getD []) (User.resolveTokenName tn? a)
            (collisionScan rnd (u.apiTokens.getD []) (rnd i) (i + 1)).1))],
        storePut store username (mergeUser u (tokensOnly (objSet (u.apiTokens.getD [])
            (User.resolveTokenName tn? a)
            (collisionScan rnd (u.apiTokens.getD []) (rnd i) (i + 1)).1))),
        (collisionScan rnd (u.apiTokens.getD []) (rnd i) (i + 1)).2⟩ := by
  have hl : store.lookup username = some u := (get_ok_iff store username u).mp hget
  unfold User.addToken
  rw [hget]
  dsimp only
  rw [update_ok store username u _ hl]

theorem deleteToken_err (store : Store) (username tn : String) (e : Err)
    (hget : User.get store username = .error e) :
    User.deleteToken store username tn = ⟨.error e, [], store⟩ := by
  unfold User.deleteToken
  rw [hget]

theorem deleteToken_noMap (store : Store) (username tn : String) (u : Account)
    (hget : User.get store username = .ok u) (hnone : u.apiTokens = none) :
    User.deleteToken store username tn = ⟨.error .typeError, [], store⟩ := by
  unfold User.deleteToken
  rw [hget]
  dsimp only
  rw [hnone]

theorem deleteToken_missing (store : Store) (username tn : String) (u : Account)
    (m : TokenMap) (hget : User.get store username = .ok u)
    (hm : u.apiTokens = some m) (hfalsy : jsFalsy (objGet m tn) = true) :
    User.deleteToken store username tn = ⟨.error .tokenNotFound, [], store⟩ := by
  unfold User.deleteToken
  rw [hget]
  dsimp only
  rw [hm]
  dsimp only
  rw [hfalsy]
  simp

theorem deleteToken_run (store : Store) (username tn : String) (u : Account)
    (m : TokenMap) (hget : User.get store username = .ok u)
    (hm : u.apiTokens = some m) (hfalsy : jsFalsy (objGet m tn) = false) :
    User.deleteToken store username tn =
      ⟨.ok (), [(username, tokensOnly (objDelete m tn))],
        storePut store username (mergeUser u (tokensOnly (objDelete m tn)))⟩ := by
  have hl : store.lookup username = some u := (get_ok_iff store username u).mp hget
  unfold User.deleteToken
  rw [hget]
  dsimp only
  rw [hm]
  dsimp only
  rw [update_ok store username u _ hl, hfalsy]
  simp

/-! ### Length bound for the base-36 fragment -/

theorem b36aux_length (fuel : Nat) :
    ∀ (n : Nat) (acc : List Char) (k : Nat),
      n < 36 ^ k → (b36aux fuel n acc).length ≤ k + acc.length := by
  induction fuel with
  | zero => intro n acc k _; simp [b36aux]
  | succ fuel ih =>
    intro n acc k hk
    simp only [b36aux]
    by_cases hn : n = 0
    · rw [if_pos hn]; omega
    · rw [if_neg hn]
      have hk0 : k ≠ 0 := by
        intro h0
        rw [h0, pow_zero] at hk
        omega
      obtain ⟨k', rfl⟩ : ∃ k', k = k' + 1 := ⟨k - 1, by omega⟩
      have hdiv : n / 36 < 36 ^ k' := by
        rw [Nat.div_lt_iff_lt_mul (by norm_num : (0 : Nat) < 36)]
        calc n < 36 ^ (k' + 1) := hk
        _ = 36 ^ k' * 36 := by rw [pow_succ]
      have h2 := ih (n / 36) (b36digit (n % 36) :: acc) k' hdiv
      simp only [List.length_cons] at h2
      omega

theorem natToB36_length (n : Nat) (h : n < 1000000000) :
    (natToB36 n).length ≤ 6 := by
  unfold natToB36
  by_cases hn : n = 0
  · rw [if_pos hn]
    decide
  · rw [if_neg hn]
    have h36 : (36 : Nat) ^ 6 = 2176782336 := by norm_num
    have hb := b36aux_length n n [] 6 (by omega)
    simpa [String.length] using hb

/-! ### The claims -/

/-- C1 (counterexample): the collision guard of `addToken` is a single
pass, so the regenerated value is never rechecked against entries already
scanned.  With existing values `x`, `y` and the uuid stream
`x, y, x, ...`, the candidate `x` collides with entry `a`, the regenerated
`y` collides with entry `b`, and the final regenerated `x` is accepted
even though it equals the stored value of entry `a`: the written map holds
the duplicate value `x`, refuting both the repeat-until-clean scan and the
pairwise-distinct consequence. -/
theorem claim1_counterexample :
    (User.addToken [("alice", ⟨"alice", "pw", "e", some [("a", "x"), ("b", "y")]⟩)]
        "alice" (some "c") 0 (fun i => if i = 1 then "y" else "x") 0).writes
      = [("alice", tokensOnly [("a", "x"), ("b", "y"), ("c", "x")])] ∧
    ¬ (([("a", "x"), ("b", "y"), ("c", "x")] : TokenMap).map Prod.snd).Nodup ∧
    "x" ∈ ([("a", "x"), ("b", "y")] : TokenMap).map Prod.snd :=
  ⟨by decide, by decide, by decide⟩

/-- C1 (amended): the fresh value is compared once against each existing
value in iteration order and regenerated at each colliding entry; when the
scan consumes no extra draw (`ridx = i + 1`), the accepted value is the
initial draw `rnd i` and it differs from every stored value of the
account.  Pairwise distinctness after regeneration is not guaranteed. -/
theorem claim1_single_pass (store : Store) (username : String)
    (tn? : Option String) (a : Nat) (rnd : Nat → String) (i : Nat)
    (u : Account) (hget : User.get store username = .ok u)
    (hone : (User.addToken store username tn? a rnd i).ridx = i + 1) :
    (collisionScan rnd (u.apiTokens.getD []) (rnd i) (i + 1)).1 = rnd i ∧
    ∀ kv ∈ u.apiTokens.getD [], kv.2 ≠ rnd i := by
  rw [addToken_run store username tn? a rnd i u hget] at hone
  dsimp only at hone
  exact collisionScan_stable rnd (u.apiTokens.getD []) (rnd i) (i + 1) hone

/-- Witness for C1 (amended): a concrete collision-free add. -/
theorem claim1_single_pass_witness :
    (collisionScan (fun _ => "y") [("a", "x")] ((fun _ => "y") 0) (0 + 1)).1
      = (fun _ => "y") 0 ∧
    ∀ kv ∈ ([("a", "x")] : TokenMap), kv.2 ≠ (fun _ => "y") 0 :=
  claim1_single_pass [("alice", ⟨"alice", "pw", "e", some [("a", "x")]⟩)]
    "alice" (some "c") 0 (fun _ => "y") 0 ⟨"alice", "pw", "e", some [("a", "x")]⟩
    (by decide) (by decide)

/-- C2: a list request authenticated by a method other than
username/password returns, for any successfully fetched token map, the
filtered body holding exactly the single entry keyed by the caller's token
name, whose value is the stored value when present and the absent value
when missing. -/
theorem claim2_filtered_list (store : Store) (username : String)
    (auth : AuthMethod) (m : TokenMap)
    (hm : (User.tokens store username).result = .ok m)
    (hauth : auth.method ≠ "username/password") :
    getTokensRoute store username auth = .json 200 [(auth.id, objGet m auth.id)] := by
  unfold getTokensRoute
  rw [hm]
  dsimp only
  rw [if_pos (show (auth.method != "username/password") = true from by
    simpa using hauth)]

/-- Witness for C2: an account with two tokens; the token-authenticated
caller sees exactly its own entry, and a caller whose token name is gone
gets the single absent-valued entry. -/
theorem claim2_witness :
    getTokensRoute [("bob", ⟨"bob", "pw", "e", some [("t1", "v1"), ("t2", "v2")]⟩)]
        "bob" ⟨"token", "t1"⟩
      = .json 200 [("t1", objGet [("t1", "v1"), ("t2", "v2")] "t1")] ∧
    getTokensRoute [("bob", ⟨"bob", "pw", "e", some [("t1", "v1"), ("t2", "v2")]⟩)]
        "bob" ⟨"token", "gone"⟩
      = .json 200 [("gone", objGet [("t1", "v1"), ("t2", "v2")] "gone")] :=
  ⟨claim2_filtered_list _ "bob" ⟨"token", "t1"⟩ [("t1", "v1"), ("t2", "v2")]
      (by decide) (by decide),
    claim2_filtered_list _ "bob" ⟨"token", "gone"⟩ [("t1", "v1"), ("t2", "v2")]
      (by decide) (by decide)⟩

/-- C3 (code bug evaluated): for a token-authenticated list request on a
missing account, the fetch fails with `notFound` but the route's filtering
branch runs before the `err` check and dereferences the undefined result:
the handler throws a `TypeError` instead of surfacing the error. -/
theorem claim3_error_swallowed :
    (User.tokens ([] : Store) "alice").result = .error .notFound ∧
    getTokensRoute [] "alice" ⟨"token", "t"⟩ = .crash .typeError :=
  ⟨by decide, by decide⟩

/-- C4: deleting a token name absent from an existing account's (present)
token map fails with `tokenNotFound`, performs no storage write, and
leaves the store unchanged. -/
theorem claim4_delete_missing (store : Store) (username tokenname : String)
    (u : Account) (m : TokenMap) (hget : User.get store username = .ok u)
    (hm : u.apiTokens = some m) (habs : objGet m tokenname = none) :
    User.deleteToken store username tokenname = ⟨.error .tokenNotFound, [], store⟩ :=
  deleteToken_missing store username tokenname u m hget hm (by rw [habs]; rfl)

/-- Witness for C4: a concrete delete of a missing name. -/
theorem claim4_witness :
    User.deleteToken [("alice", ⟨"alice", "pw", "e", some [("a", "x")]⟩)]
        "alice" "missing"
      = ⟨.error .tokenNotFound, [],
          [("alice", ⟨"alice", "pw", "e", some [("a", "x")]⟩)]⟩ :=
  claim4_delete_missing _ "alice" "missing" ⟨"alice", "pw", "e", some [("a", "x")]⟩
    [("a", "x")] (by decide) rfl (by decide)

/-! ### Composition lemmas for successful named adds -/

theorem addToken_result (store : Store) (username tn : String) (a : Nat)
    (rnd : Nat → String) (i : Nat) (u : Account)
    (hget : User.get store username = .ok u) :
    (User.addToken store username (some tn) a rnd i).result
      = .ok (objSet (objSet [] "operation" (classifyOp (u.apiTokens.getD []) tn)) tn
          (collisionScan rnd (u.apiTokens.getD []) (rnd i) (i + 1)).1) := by
  rw [addToken_run store username (some tn) a rnd i u hget]
  dsimp only [User.resolveTokenName]

theorem addToken_store_tokens (store : Store) (username tn : String) (a : Nat)
    (rnd : Nat → String) (i : Nat) (u : Account)
    (hget : User.get store username = .ok u) :
    User.get (User.addToken store username (some tn) a rnd i).store username
      = .ok (mergeUser u (tokensOnly (objSet (u.apiTokens.getD []) tn
          (collisionScan rnd (u.apiTokens.getD []) (rnd i) (i + 1)).1))) := by
  have hl : store.lookup username = some u := (get_ok_iff store username u).mp hget
  rw [addToken_run store username (some tn) a rnd i u hget]
  dsimp only [User.resolveTokenName]
  exact get_storePut store username u _ hl

/-- C5: adding the name `"k"` twice to an existing account (whose fetched
token map has no duplicate keys) reports `"update"` on the second call,
and afterwards the stored token map holds exactly one entry named `"k"`
whose value is the value the second call handed back under the key
`"k"`. -/
theorem claim5_add_twice (store : Store) (username : String) (a1 a2 : Nat)
    (rnd rnd' : Nat → String) (i i' : Nat) (u0 : Account)
    (hget : User.get store username = .ok u0)
    (hnd : ((u0.apiTokens.getD []).map Prod.fst).Nodup) :
    ∃ r2 u2 m2 v2,
      (User.addToken (User.addToken store username (some "k") a1 rnd i).store
          username (some "k") a2 rnd' i').result = .ok r2 ∧
      objGet r2 "operation" = some "update" ∧
      User.get (User.addToken (User.addToken store username (some "k") a1 rnd i).store
          username (some "k") a2 rnd' i').store username = .ok u2 ∧
      u2.apiTokens = some m2 ∧
      countKey m2 "k" = 1 ∧
      objGet m2 "k" = some v2 ∧
      objGet r2 "k" = some v2 := by
  have hu1get := addToken_store_tokens store username "k" a1 rnd i u0 hget
  set m0 := u0.apiTokens.getD [] with hm0def
  set tok1 := (collisionScan rnd m0 (rnd i) (i + 1)).1 with htok1def
  set m1 := objSet m0 "k" tok1 with hm1def
  set u1 := mergeUser u0 (tokensOnly m1) with hu1def
  have hm1keys : (m1.map Prod.fst).Nodup := by
    rw [hm1def]
    exact nodup_keys_objSet m0 "k" tok1 hnd
  have hu1tokens : u1.apiTokens.getD [] = m1 := rfl
  have hres2 := addToken_result (User.addToken store username (some "k") a1 rnd i).store
    username "k" a2 rnd' i' u1 hu1get
  have hget2 := addToken_store_tokens (User.addToken store username (some "k") a1 rnd i).store
    username "k" a2 rnd' i' u1 hu1get
  rw [hu1tokens] at hres2 hget2
  have hcl : classifyOp m1 "k" = "update" := by
    unfold classifyOp
    rw [hm1def, objGet_objSet_self]
    rfl
  rw [hcl] at hres2
  set tok2 := (collisionScan rnd' m1 (rnd' i') (i' + 1)).1 with htok2def
  set m2 := objSet m1 "k" tok2 with hm2def
  set u2 := mergeUser u1 (tokensOnly m2) with hu2def
  refine ⟨objSet (objSet [] "operation" "update") "k" tok2, u2, m2, tok2,
    hres2, ?_, hget2, rfl, ?_, ?_, ?_⟩
  · rw [objGet_objSet_ne _ _ _ _ (by decide : ("operation" : String) ≠ "k"),
      objGet_objSet_self]
  · rw [hm2def]
    exact countKey_objSet_self m1 "k" tok2 hm1keys
  · rw [hm2def]
    exact objGet_objSet_self m1 "k" tok2
  · exact objGet_objSet_self _ "k" tok2

/-- Witness for C5: a concrete double add of `"k"` on a fresh account. -/
theorem claim5_witness :
    ∃ r2 u2 m2 v2,
      (User.addToken (User.addToken [("alice", ⟨"alice", "pw", "e", none⟩)]
          "alice" (some "k") 0 (fun _ => "aaa") 0).store
          "alice" (some "k") 0 (fun _ => "bbb") 0).result = .ok r2 ∧
      objGet r2 "operation" = some "update" ∧
      User.get (User.addToken (User.addToken [("alice", ⟨"alice", "pw", "e", none⟩)]
          "alice" (some "k") 0 (fun _ => "aaa") 0).store
          "alice" (some "k") 0 (fun _ => "bbb") 0).store "alice" = .ok u2 ∧
      u2.apiTokens = some m2 ∧
      countKey m2 "k" = 1 ∧
      objGet m2 "k" = some v2 ∧
      objGet r2 "k" = some v2 :=
  claim5_add_twice [("alice", ⟨"alice", "pw", "e", none⟩)] "alice" 0 0
    (fun _ => "aaa") (fun _ => "bbb") 0 0 ⟨"alice", "pw", "e", none⟩
    (by decide) (by decide)

/-- C6 (counterexample): rotating a token literally named `"operation"`.
The name exists in the pre-mutation map, so the claim requires the
reported operation kind to be `"update"`, but the response assembly
`newToken[tokenname] = token` overwrites the `operation` field with the
token value: the response is `[("operation", "zzz")]` and the reported
kind is the token value, not `"update"`. -/
theorem claim6_counterexample :
    (objGet [("operation", "x")] "operation").isSome = true ∧
    (User.addToken [("alice", ⟨"alice", "pw", "e", some [("operation", "x")]⟩)]
        "alice" (some "operation") 0 (fun _ => "zzz") 0).result
      = .ok [("operation", "zzz")] ∧
    some "zzz" ≠ some "update" :=
  ⟨by decide, by decide, by decide⟩

/-- C6 (amended): for every add call whose token name is not itself the
literal string `"operation"`, the reported operation kind is exactly the
classification computed from the pre-mutation map, which is `"update"`
iff the name is already a key there and `"insert"` otherwise.  (For the
name `"operation"` the response assembly overwrites the reported kind with
the token value; the classification itself is still computed from the
pre-mutation map.) -/
theorem claim6_operation_kind (store : Store) (username tn : String) (a : Nat)
    (rnd : Nat → String) (i : Nat) (u : Account) (r : User.Response)
    (hop : tn ≠ "operation")
    (hget : User.get store username = .ok u)
    (hr : (User.addToken store username (some tn) a rnd i).result = .ok r) :
    objGet r "operation" = some (classifyOp (u.apiTokens.getD []) tn) ∧
    (classifyOp (u.apiTokens.getD []) tn = "update" ↔
      (objGet (u.apiTokens.getD []) tn).isSome = true) := by
  constructor
  · rw [addToken_result store username tn a rnd i u hget] at hr
    have hrr : r = objSet (objSet [] "operation" (classifyOp (u.apiTokens.getD []) tn)) tn
        (collisionScan rnd (u.apiTokens.getD []) (rnd i) (i + 1)).1 := by
      injection hr with h
      exact h.symm
    rw [hrr, objGet_objSet_ne _ _ _ _ (fun h => hop h.symm), objGet_objSet_self]
  · unfold classifyOp
    by_cases h : (objGet (u.apiTokens.getD []) tn).isSome = true
    · rw [if_pos h]
      exact ⟨fun _ => h, fun _ => rfl⟩
    · rw [if_neg h]
      exact ⟨fun hc => absurd hc (by decide), fun hh => absurd hh h⟩

/-- Witness for C6 (amended): rotating the token `"t"` with one old value
present. -/
theorem claim6_witness :
    objGet [("operation", "update"), ("t", "v")] "operation"
      = some (classifyOp [("t", "old")] "t") ∧
    (classifyOp [("t", "old")] "t" = "update" ↔
      (objGet [("t", "old")] "t").isSome = true) :=
  claim6_operation_kind [("alice", ⟨"alice", "pw", "e", some [("t", "old")]⟩)]
    "alice" "t" 0 (fun _ => "v") 0 ⟨"alice", "pw", "e", some [("t", "old")]⟩
    [("operation", "update"), ("t", "v")] (by decide) (by decide) (by decide)

/-- C7: `list` fails with `notFound` exactly when the account is absent;
for an existing account it returns the stored token map (the empty map
when the `apiTokens` field is absent) and performs no storage write. -/
theorem claim7_list (store : Store) (username : String) :
    ((User.tokens store username).result = .error .notFound ↔
      store.lookup username = none) ∧
    (∀ u, store.lookup username = some u →
      (User.tokens store username).result = .ok (u.apiTokens.getD [])) ∧
    (User.tokens store username).writes = [] := by
  refine ⟨?_, ?_, ?_⟩
  · cases h : store.lookup username with
    | none =>
      rw [tokens_err store username .notFound (by unfold User.get; rw [h])]
      simp
    | some u =>
      rw [tokens_ok store username u ((get_ok_iff store username u).mpr h)]
      simp
  · intro u h
    rw [tokens_ok store username u ((get_ok_iff store username u).mpr h)]
  · cases h : store.lookup username with
    | none =>
      rw [tokens_err store username .notFound (by unfold User.get; rw [h])]
    | some u =>
      rw [tokens_ok store username u ((get_ok_iff store username u).mpr h)]

/-- Witness for C7: a missing account errs with `notFound`; an existing
account with no `apiTokens` field lists the empty map. -/
theorem claim7_witness :
    (User.tokens ([] : Store) "alice").result = .error .notFound ∧
    (User.tokens [("bob", ⟨"bob", "pw", "e", none⟩)] "bob").result = .ok [] :=
  ⟨(claim7_list [] "alice").1.mpr rfl,
    (claim7_list [("bob", ⟨"bob", "pw", "e", none⟩)] "bob").2.1
      ⟨"bob", "pw", "e", none⟩ rfl⟩

/-- C8: both auto-generated names are a fixed marker followed by the same
short base-36 fragment of the random draw; the gateway marker `token_`
differs from the manager's internal default `gen_`, and for draws below
`1e9` (the range of `~~(Math.random() * 1e9)`) the fragment is at most six
base-36 digits. -/
theorem claim8_auto_names (r : Nat) :
    genTokenName r = "gen_" ++ natToB36 r ∧
    gatewayTokenName r = "token_" ++ natToB36 r ∧
    "token_" ≠ "gen_" ∧
    (r < 1000000000 → (natToB36 r).length ≤ 6) :=
  ⟨rfl, rfl, by decide, fun h => natToB36_length r h⟩

/-- Witness for C8 at the draw `123456789`. -/
theorem claim8_witness :
    genTokenName 123456789 = "gen_" ++ natToB36 123456789 ∧
    gatewayTokenName 123456789 = "token_" ++ natToB36 123456789 ∧
    "token_" ≠ "gen_" ∧
    (natToB36 123456789).length ≤ 6 := by
  have h := claim8_auto_names 123456789
  exact ⟨h.1, h.2.1, h.2.2.1, h.2.2.2 (by decide)⟩

/-- C9: every storage write attempted by `addToken` or `deleteToken`
carries exactly the one field `{apiTokens: <new full map>}` for the
targeted account; merging such a payload changes no other account field;
within the map both operations change only the targeted name; and two
adds with distinct names `k1`, `k2` leave both keys present while every
other entry keeps its stored value. -/
theorem claim9_frame :
    (∀ (store : Store) (username : String) (tn? : Option String) (a : Nat)
        (rnd : Nat → String) (i : Nat) w,
        w ∈ (User.addToken store username tn? a rnd i).writes →
        ∃ m, w = (username, tokensOnly m)) ∧
    (∀ (store : Store) (username tn : String) w,
        w ∈ (User.deleteToken store username tn).writes →
        ∃ m, w = (username, tokensOnly m)) ∧
    (∀ (u : Account) (m : TokenMap),
        (mergeUser u (tokensOnly m)).username = u.username ∧
        (mergeUser u (tokensOnly m)).password = u.password ∧
        (mergeUser u (tokensOnly m)).email = u.email ∧
        (mergeUser u (tokensOnly m)).apiTokens = some m) ∧
    (∀ (m : TokenMap) (k v j : String), j ≠ k → objGet (objSet m k v) j = objGet m j) ∧
    (∀ (m : TokenMap) (k j : String), j ≠ k → objGet (objDelete m k) j = objGet m j) ∧
    (∀ (store : Store) (username : String) (u0 : Account) (k1 k2 : String)
        (a1 a2 : Nat) (rnd rnd' : Nat → String) (i i' : Nat),
        k1 ≠ k2 →
        User.get store username = .ok u0 →
        ∃ u2 m2,
          User.get (User.addToken (User.addToken store username (some k1) a1 rnd i).store
              username (some k2) a2 rnd' i').store username = .ok u2 ∧
          u2.apiTokens = some m2 ∧
          (objGet m2 k1).isSome = true ∧
          (objGet m2 k2).isSome = true ∧
          ∀ j, j ≠ k1 → j ≠ k2 → objGet m2 j = objGet (u0.apiTokens.getD []) j) := by
  refine ⟨?_, ?_, ?_, ?_, ?_, ?_⟩
  · intro store username tn? a rnd i w hw
    cases hg : User.get store username with
    | error e =>
      rw [addToken_err store username tn? a rnd i e hg] at hw
      simp at hw
    | ok u =>
      rw [addToken_run store username tn? a rnd i u hg] at hw
      dsimp only at hw
      rw [List.mem_singleton] at hw
      exact ⟨_, hw⟩
  · intro store username tn w hw
    cases hg : User.get store username with
    | error e =>
      rw [deleteToken_err store username tn e hg] at hw
      simp at hw
    | ok u =>
      cases hapi : u.apiTokens with
      | none =>
        rw [deleteToken_noMap store username tn u hg hapi] at hw
        simp at hw
      | some m =>
        cases hf : jsFalsy (objGet m tn) with
        | true =>
          rw [deleteToken_missing store username tn u m hg hapi hf] at hw
          simp at hw
        | false =>
          rw [deleteToken_run store username tn u m hg hapi hf] at hw
          dsimp only at hw
          rw [List.mem_singleton] at hw
          exact ⟨_, hw⟩
  · intro u m
    exact ⟨rfl, rfl, rfl, rfl⟩
  · intro m k v j hj
    exact objGet_objSet_ne m k v j hj
  · intro m k j hj
    exact objGet_objDelete_ne m k j hj
  · intro store username u0 k1 k2 a1 a2 rnd rnd' i i' hk hget
    have hget1 := addToken_store_tokens store username k1 a1 rnd i u0 hget
    set m0 := u0.apiTokens.getD [] with hm0def
    set tok1 := (collisionScan rnd m0 (rnd i) (i + 1)).1 with htok1def
    set m1 := objSet m0 k1 tok1 with hm1def
    set u1 := mergeUser u0 (tokensOnly m1) with hu1def
    have hu1tokens : u1.apiTokens.getD [] = m1 := rfl
    have hget2 := addToken_store_tokens (User.addToken store username (some k1) a1 rnd i).store
      username k2 a2 rnd' i' u1 hget1
    rw [hu1tokens] at hget2
    set tok2 := (collisionScan rnd' m1 (rnd' i') (i' + 1)).1 with htok2def
    set m2 := objSet m1 k2 tok2 with hm2def
    refine ⟨mergeUser u1 (tokensOnly m2), m2, hget2, rfl, ?_, ?_, ?_⟩
    · rw [hm2def, objGet_objSet_ne m1 k2 tok2 k1 hk, hm1def, objGet_objSet_self]
      rfl
    · rw [hm2def, objGet_objSet_self]
      rfl
    · intro j hj1 hj2
      rw [hm2def, objGet_objSet_ne m1 k2 tok2 j hj2, hm1def,
        objGet_objSet_ne m0 k1 tok1 j hj1]

/-- Witness for C9: two adds with names `k1` and `k2` on an account that
already holds one token; both keys end up present. -/
theorem claim9_witness :
    ∃ u2 m2,
      User.get (User.addToken (User.addToken
          [("alice", ⟨"alice", "pw", "e", some [("old", "w")]⟩)]
          "alice" (some "k1") 0 (fun _ => "v1") 0).store
          "alice" (some "k2") 0 (fun _ => "v2") 0).store "alice" = .ok u2 ∧
      u2.apiTokens = some m2 ∧
      (objGet m2 "k1").isSome = true ∧
      (objGet m2 "k2").isSome = true := by
  obtain ⟨u2, m2, hg, hm, h1, h2, _⟩ := claim9_frame.2.2.2.2.2
    [("alice", ⟨"alice", "pw", "e", some [("old", "w")]⟩)] "alice"
    ⟨"alice", "pw", "e", some [("old", "w")]⟩ "k1" "k2" 0 0
    (fun _ => "v1") (fun _ => "v2") 0 0 (by decide) (by decide)
  exact ⟨u2, m2, hg, hm, h1, h2⟩

/-- C10: on an account whose stored record carries no token map at all,
`deleteToken` indexes into the absent map and fails with the `TypeError`
crash (never reaching the `tokenNotFound` branch), while `tokens` and
`addToken` supply the empty-map fallback: `tokens` answers the empty map
and `addToken` succeeds, inserting into the empty map. -/
theorem claim10_absent_map (store : Store) (username : String) (u : Account)
    (hget : User.get store username = .ok u) (hnone : u.apiTokens = none) :
    (∀ tn, User.deleteToken store username tn = ⟨.error .typeError, [], store⟩) ∧
    (User.tokens store username).result = .ok [] ∧
    (∀ (tn : String) (a : Nat) (rnd : Nat → String) (i : Nat),
      (User.addToken store username (some tn) a rnd i).result
        = .ok (objSet (objSet [] "operation" "insert") tn (rnd i))) := by
  refine ⟨fun tn => deleteToken_noMap store username tn u hget hnone, ?_, ?_⟩
  · rw [tokens_ok store username u hget, hnone]
    rfl
  · intro tn a rnd i
    rw [addToken_result store username tn a rnd i u hget, hnone]
    rfl

/-- Witness for C10: a concrete account with no `apiTokens` field. -/
theorem claim10_witness :
    (User.deleteToken [("alice", ⟨"alice", "pw", "e", none⟩)] "alice" "t"
      = ⟨.error .typeError, [], [("alice", ⟨"alice", "pw", "e", none⟩)]⟩) ∧
    (User.tokens [("alice", ⟨"alice", "pw", "e", none⟩)] "alice").result = .ok [] ∧
    (User.addToken [("alice", ⟨"alice", "pw", "e", none⟩)] "alice" (some "t") 0
        (fun _ => "v") 0).result
      = .ok (objSet (objSet [] "operation" "insert") "t" ((fun _ => "v") 0)) := by
  have h := claim10_absent_map [("alice", ⟨"alice", "pw", "e", none⟩)] "alice"
    ⟨"alice", "pw", "e", none⟩ (by decide) rfl
  exact ⟨h.1 "t", h.2.1, h.2.2 "t" 0 (fun _ => "v") 0⟩
